import Mathlib

/-!
# goo: compiler and VM, a shallow embedding

This file embeds the compiler (`compiler/compiler.go`) and the virtual
machine (`vm/vm.go`) of the goo language closely enough to settle the
frozen claims about them.

Modelling conventions, stated once:

* Go slices used as stacks grow at their right end and are read with
  `s[len(s)-1]`.  We store every such stack as a Lean `List` with the most
  recently pushed element FIRST (push is cons, pop reads the head).  This
  applies to the value stack, the environment-frame stack
  (`symbolTableStack`) and the call stack.
* goo numbers are IEEE-754 float64 in the source.  Every program examined
  here computes only with small integer values, on which float64
  arithmetic is exact, so numbers are modelled as `Int`.
* Go `map[string]T` with `m[k] = v` assignment is modelled as an
  association list where `set` replaces an existing key and otherwise
  appends; lookups are key-equality based, so the representation is
  observationally the map.
* Go's runtime symbol tables are mutated only at the innermost frame, and
  every frame's parent pointer is set from a table whose contents do not
  change while the child is live, so the pointer structure is modelled by
  value: each frame carries a snapshot of its parent chain.
* `fmt.Errorf` failures are `Except Err`; the `Err.fuel` variant is a
  modelling artifact of the fuel-indexed interpreter and never corresponds
  to a source behaviour (the Go loop simply keeps running).
-/

namespace Goo

/-! ## Runtime values, lambda objects and environment frames (vm.go) -/

mutual

/-- A runtime value of the VM: Go `interface{}` holding `float64`, `bool`,
`string`, `[]interface{}` or `*LambdaFunction`. -/
inductive Value where
  | num (n : Int)
  | vbool (b : Bool)
  | vstr (s : String)
  | vlist (elems : List Value)
  | vlambda (lf : LambdaFn)

/-- `LambdaFunction` from vm.go: start/end instruction indices, parameter
count and names, captured-variable names, and the captured environment. -/
inductive LambdaFn where
  | mk (startAddress endAddress paramCount : Nat)
       (paramNames capturedVars : List String)
       (symbolTable : Env)

/-- `RuntimeSymbolTable` from vm.go: a name-to-value mapping plus a parent
pointer. -/
inductive Env where
  | mk (symbols : List (String × Value)) (parent : Option Env)

end

namespace LambdaFn

def startAddress : LambdaFn → Nat | .mk s _ _ _ _ _ => s
def endAddress : LambdaFn → Nat | .mk _ e _ _ _ _ => e
def paramCount : LambdaFn → Nat | .mk _ _ c _ _ _ => c
def paramNames : LambdaFn → List String | .mk _ _ _ p _ _ => p
def capturedVars : LambdaFn → List String | .mk _ _ _ _ c _ => c
def symbolTable : LambdaFn → Env | .mk _ _ _ _ _ t => t

end LambdaFn

namespace Env

def symbols : Env → List (String × Value) | .mk s _ => s
def parent : Env → Option Env | .mk _ p => p

/-- Key update in an association list: replace the first binding of the
key, else append.  Models Go `m[k] = v`. -/
def setAssoc (l : List (String × Value)) (name : String) (v : Value) :
    List (String × Value) :=
  match l with
  | [] => [(name, v)]
  | (k, w) :: rest =>
      if k = name then (k, v) :: rest else (k, w) :: setAssoc rest name v

/-- `RuntimeSymbolTable.Set`. -/
def set (e : Env) (name : String) (v : Value) : Env :=
  .mk (setAssoc e.symbols name v) e.parent

/-- Lookup in this frame's own mapping only (`rst.symbols[name]`, as used
by `PUSH_VARIABLE`'s walk down the frame stack). -/
def getOwn (e : Env) (name : String) : Option Value :=
  match e with
  | .mk symbols _ =>
      match symbols.find? (fun p => p.1 = name) with
      | some p => some p.2
      | none => none

/-- `RuntimeSymbolTable.Get`: this frame, then the parent chain. -/
def get : Env → String → Option Value
  | .mk symbols parent, name =>
      match symbols.find? (fun p => p.1 = name) with
      | some p => some p.2
      | none =>
          match parent with
          | some par => par.get name
          | none => none

end Env

/-- `FunctionMetadata` from vm.go. -/
structure FnMeta where
  startAddress : Nat
  paramCount : Nat
  paramNames : List String

/-- `CallStackEntry` from vm.go. -/
structure CallEntry where
  returnAddress : Nat
  symbolTable : Env

/-! ## Decoded instructions

The VM operates on the decoded records produced by `convertBytecode`
(compiler.go).  A record is an opcode plus raw operand bytes; each VM case
re-decodes the bytes it needs.  We carry the decoded payloads directly:
the decoder's framing makes the bytes-to-payload reading bijective for the
well-formed operands the compiler emits.  `DEFINE_FUNCTION` and
`CREATE_LAMBDA` serialize a parameter count next to the name list, and the
decoder rejects streams where the two disagree, so only the list is
carried and the count is its length.  `MAP` is present in the source but
touched by no claim and is left out. -/

inductive Instr where
  | add | sub | mul | div | grt | less | eq | neq
  | pushVariable (name : String)
  | pushNumber (n : Int)
  | pushBool (b : Bool)
  | pushString (s : String)
  | defineVariable (name : String)
  | defineFunction (name : String) (startAddress : Nat) (params : List String)
  | createLambda (startAddress endAddress : Nat) (params caps : List String)
  | callLambda (numArgs : Nat)
  | callFunction (name : String)
  | ifOp | elseOp | endifOp
  | print
  | ret
  | jump (offset : Nat)
  | filter (numArgs : Nat)
deriving DecidableEq

/-- The opcode byte of an instruction, from the `const` block of
compiler.go (`ADD Opcode = iota`, `PUSH_VARIABLE Opcode = iota + 20`,
`IF Opcode = iota + 30`, `MAP = iota + 40`).  `FILTER` is referenced by
vm.go but absent from this opcode table; it is given the value after
`MAP`, which nothing below depends on. -/
def opcodeByte : Instr → Nat
  | .add => 0 | .sub => 1 | .mul => 2 | .div => 3
  | .grt => 4 | .less => 5 | .eq => 6 | .neq => 7
  | .pushVariable _ => 28 | .pushNumber _ => 29
  | .pushBool _ => 30 | .pushString _ => 31
  | .defineVariable _ => 32 | .defineFunction _ _ _ => 33
  | .createLambda _ _ _ _ => 34 | .callLambda _ => 35
  | .ifOp => 46 | .elseOp => 47 | .endifOp => 48
  | .print => 49 | .ret => 50 | .jump _ => 51 | .callFunction _ => 52
  | .filter _ => 64

/-! ## VM state and errors -/

/-- A runtime failure (`fmt.Errorf` in the source, or a Go panic noted as
such in the message).  `fuel` marks exhaustion of the interpreter's fuel,
a modelling artifact with no source counterpart. -/
inductive Err where
  | rt (msg : String)
  | fuel
deriving DecidableEq

/-- The `VM` struct from vm.go.  `code` and `offsetMap` are immutable
after construction; every stack is stored top-first. -/
structure St where
  stack : List Value
  pc : Nat
  code : List Instr
  offsetMap : List (Nat × Nat)
  symbolTableStack : List Env
  functions : List (String × FnMeta)
  callStack : List CallEntry
  output : List String

/-- `VM.pop`. -/
def pop (s : List Value) : Except Err (Value × List Value) :=
  match s with
  | [] => .error (.rt "stack underflow: cannot pop from an empty stack")
  | v :: rest => .ok (v, rest)

/-- The argument-popping loop `for i := numArgs - 1; i >= 0; i--` used by
`CALL_LAMBDA` and `CALL_FUNCTION`: it fills the slice from the right, so
the returned list is in the original push order (first pushed first). -/
def popArgsOrig : Nat → List Value → Except Err (List Value × List Value)
  | 0, s => .ok ([], s)
  | n + 1, s => do
      let (v, s1) ← pop s
      let (vs, s2) ← popArgsOrig n s1
      .ok (vs ++ [v], s2)

/-- The argument-popping loop `for i := 0; i < numArgs; i++` used by
`FILTER`: it appends each popped value, so the returned list is in pop
order (most recently pushed first). -/
def popArgsPop : Nat → List Value → Except Err (List Value × List Value)
  | 0, s => .ok ([], s)
  | n + 1, s => do
      let (v, s1) ← pop s
      let (vs, s2) ← popArgsPop n s1
      .ok (v :: vs, s2)

/-- `PUSH_VARIABLE`'s resolution: walk the frame stack from the innermost
frame outward, consulting each frame's own mapping (not parent chains). -/
def lookupStack : List Env → String → Option Value
  | [], _ => none
  | e :: rest, name =>
      match e.getOwn name with
      | some v => some v
      | none => lookupStack rest name

/-- A fresh `RuntimeSymbolTable` with the given parent, with each
parameter name `Set` to the matching argument in order
(`for i, paramName := range ParamNames`).  The source indexes `args[i]`
and would panic if the names outnumbered the arguments; the decoder's
count checks keep the lengths equal on every program considered here. -/
def bindParamsTable (parent : Option Env) (names : List String)
    (args : List Value) : Env :=
  (names.zip args).foldl (fun e p => e.set p.1 p.2) (.mk [] parent)

/-- The capture snapshot loop of `CREATE_LAMBDA`: each captured name is
read with `Get` (parent chain included) from the innermost frame and `Set`
into a fresh parentless table, in order. -/
def snapshotCaps (cur : Env) : List String → Except Err (List (String × Value))
  | [] => .ok []
  | n :: rest =>
      match cur.get n with
      | some v => do
          let t ← snapshotCaps cur rest
          .ok ((n, v) :: t)
      | none =>
          .error (.rt ("Captured variable not found in the current scope: " ++ n))

/-- `vm.jumpToOpcode`: scan the code from `pc + 1` for the first
instruction with the given opcode and move the PC onto it; when there is
none, leave the PC where it was. -/
def jumpToOpcode (code : List Instr) (pc : Nat) (target : Nat) : Nat :=
  match (code.drop (pc + 1)).findIdx? (fun ins => opcodeByte ins == target) with
  | some k => pc + 1 + k
  | none => pc

mutual

/-- Go `%v` rendering of the values a goo program can print.  A float64
holding a small integer renders without a decimal point, matching the
`Int` model; a lambda renders as a pointer dump never exercised here. -/
def render : Value → String
  | .num n => toString n
  | .vbool b => toString b
  | .vstr s => s
  | .vlist l => "[" ++ renderList l ++ "]"
  | .vlambda _ => "lambda"

def renderList : List Value → String
  | [] => ""
  | [v] => render v
  | v :: rest => render v ++ " " ++ renderList rest

end

/-- `vmPrint` from vm.go: the value's `%v` text in an ASCII box, dashes
above and below.  The byte length Go measures equals the character count
for the ASCII output of these programs. -/
def vmPrint (v : Value) : String :=
  let vStr := render v
  let border := String.mk (List.replicate (vStr.length + 4) '-')
  border ++ "\n| " ++ vStr ++ " |\n" ++ border

/-- The two-operand arithmetic/comparison shape shared by `ADD`, `SUB`,
`MUL`, `GRT` and `LESS`: the top of the stack is the right operand, the
value under it the left; both must be numbers. -/
def binNumOp (s : St) (opName : String) (f : Int → Int → Value) :
    Except Err St :=
  match s.stack with
  | v2 :: v1 :: rest =>
    match v1, v2 with
    | .num a, .num b => .ok { s with stack := f a b :: rest }
    | _, _ => .error (.rt (opName ++ " instruction requires float operands"))
  | _ => .error (.rt (opName ++ " instruction requires at least 2 values on the stack"))

/-- `EQ`/`NEQ`: the operands must both be numbers or both be strings. -/
def eqOp (s : St) (opName : String) (pos : Bool) : Except Err St :=
  match s.stack with
  | v2 :: v1 :: rest =>
    match v1, v2 with
    | .num a, .num b =>
        .ok { s with stack := .vbool (if pos then decide (a = b) else decide (a ≠ b)) :: rest }
    | .vstr a, .vstr b =>
        .ok { s with stack := .vbool (if pos then decide (a = b) else decide (a ≠ b)) :: rest }
    | _, _ => .error (.rt (opName ++ " instruction requires operands of the same type"))
  | _ => .error (.rt (opName ++ " instruction requires at least 2 values on the stack"))

/-- `map[string]FunctionMetadata` update (`vm.functions[funcName] = ...`). -/
def updateFns (l : List (String × FnMeta)) (name : String) (m : FnMeta) :
    List (String × FnMeta) :=
  match l with
  | [] => [(name, m)]
  | (k, w) :: rest =>
      if k = name then (k, m) :: rest else (k, w) :: updateFns rest name m

/-! ## The main loop (`VM.Run`)

The Go loop is `for vm.pc = start; vm.pc < end; vm.pc++ { ...dispatch... }`.
A `continue` in Go runs the loop's post statement, so the `vm.pc++`
executes after EVERY dispatched instruction, the `continue`-terminated
`CALL_FUNCTION` and `RETURN` cases included.  `runLoop` mirrors this: one
iteration is a dispatch followed unconditionally by `pc + 1`.

Every function takes fuel and hands strictly smaller fuel to every call,
so the block is structurally recursive; `Err.fuel` never arises when the
fuel exceeds the number of dispatches a run needs. -/

mutual

def runLoop : Nat → Nat → St → Except Err St
  | 0, _, _ => .error .fuel
  | fuel + 1, endB, s =>
    if s.pc < endB then
      match stepInstr fuel s with
      | .error e => .error e
      | .ok s1 => runLoop fuel endB { s1 with pc := s1.pc + 1 }
    else .ok s

/-- One dispatch of the switch in `VM.Run`, on the instruction under the
PC.  Case order and error texts follow vm.go; `DIV` has no case in the
source switch and falls to its `default`, hence the unknown-instruction
error. -/
def stepInstr : Nat → St → Except Err St
  | 0, _ => .error .fuel
  | fuel + 1, s =>
    match s.code.get? s.pc with
    | none => .error (.rt "panic: instruction index out of range")
    | some ins =>
      match ins with
      | .pushNumber n => .ok { s with stack := .num n :: s.stack }
      | .pushBool b => .ok { s with stack := .vbool b :: s.stack }
      | .pushString str => .ok { s with stack := .vstr str :: s.stack }
      | .add => binNumOp s "ADD" (fun a b => .num (a + b))
      | .sub => binNumOp s "SUB" (fun a b => .num (a - b))
      | .mul => binNumOp s "MUL" (fun a b => .num (a * b))
      | .grt => binNumOp s "GRT" (fun a b => .vbool (decide (a > b)))
      | .less => binNumOp s "LESS" (fun a b => .vbool (decide (a < b)))
      | .eq => eqOp s "EQ" true
      | .neq => eqOp s "NEQ" false
      | .print =>
        match s.stack with
        | [] => .error (.rt "PRINT instruction requires a value on the stack")
        | v :: rest =>
            .ok { s with stack := rest, output := s.output ++ [vmPrint v] }
      | .defineVariable name =>
        match s.stack with
        | [] => .error (.rt ("No value on stack to assign to variable " ++ name))
        | v :: rest =>
          match s.symbolTableStack with
          | [] => .error (.rt "panic: empty symbol table stack")
          | cur :: outers =>
            -- the duplicate check is `currentSymbolTable.Get(varName)`:
            -- `Get` consults the frame AND its whole parent chain
            match cur.get name with
            | some _ =>
                .error (.rt ("Variable " ++ name ++
                  " is immutable and has already been defined"))
            | none =>
                .ok { s with
                      stack := rest,
                      symbolTableStack := cur.set name v :: outers }
      | .createLambda startB endB params caps =>
        match s.offsetMap.find? (fun p => p.1 = startB) with
        | none => .error (.rt "Invalid start address for lambda")
        | some ps =>
          match s.offsetMap.find? (fun p => p.1 = endB) with
          | none => .error (.rt "Invalid end address for lambda")
          | some pe =>
            match s.symbolTableStack with
            | [] => .error (.rt "panic: empty symbol table stack")
            | cur :: _ =>
              match snapshotCaps cur caps with
              | .error e => .error e
              | .ok capList =>
                  .ok { s with
                        stack := .vlambda (.mk ps.2 pe.2 params.length params caps
                          (.mk capList none)) :: s.stack }
      | .callLambda numArgs =>
        match popArgsOrig numArgs s.stack with
        | .error e => .error e
        | .ok (args, s1stack) =>
          match pop s1stack with
          | .error _ => .error (.rt "Expected a lambda function on the stack")
          | .ok (lamV, s2stack) =>
            match lamV with
            | .vlambda lf =>
              let tbl := bindParamsTable (some lf.symbolTable) lf.paramNames args
              let returnAddress := s.pc
              let s2 := { s with
                          stack := s2stack,
                          symbolTableStack := tbl :: s.symbolTableStack }
              -- `vm.Run(lf.StartAddress, lf.EndAddress)`
              match runLoop fuel lf.endAddress { s2 with pc := lf.startAddress } with
              | .error e => .error e
              | .ok s3 =>
                match s3.stack with
                | [] => .error (.rt "panic: index out of range reading lambda result")
                | top :: _ =>
                  -- `returnValue := vm.stack[len(vm.stack)-1]` is a PEEK:
                  -- the source pushes the value again without popping it
                  .ok { s3 with
                        pc := returnAddress,
                        symbolTableStack := s3.symbolTableStack.drop 1,
                        stack := top :: s3.stack }
            | _ => .error (.rt "Expected a lambda function on the stack")
      | .pushVariable name =>
        match lookupStack s.symbolTableStack name with
        | some v => .ok { s with stack := v :: s.stack }
        | none => .error (.rt ("Variable not found: " ++ name))
      | .defineFunction name startB params =>
          -- the installed start address is the operand plus one
          .ok { s with
                functions := updateFns s.functions name ⟨startB + 1, params.length, params⟩ }
      | .callFunction name =>
        match s.functions.find? (fun p => p.1 = name) with
        | none => .error (.rt ("Function " ++ name ++ " not defined"))
        | some pr =>
          if s.stack.length < pr.2.paramCount then
            .error (.rt ("Not enough arguments on stack for function " ++ name))
          else
            match popArgsOrig pr.2.paramCount s.stack with
            | .error e => .error e
            | .ok (args, rest) =>
              match s.symbolTableStack with
              | [] => .error (.rt "panic: empty symbol table stack")
              | cur :: _ =>
                let newTbl := bindParamsTable (some cur) pr.2.paramNames args
                .ok { s with
                      stack := rest,
                      callStack := ⟨s.pc, cur⟩ :: s.callStack,
                      symbolTableStack := newTbl :: s.symbolTableStack,
                      pc := pr.2.startAddress }
      | .ret =>
        match s.callStack with
        | [] => .error (.rt "Call stack is empty on return")
        | entry :: restCalls =>
          match pop s.stack with
          | .error _ => .error (.rt "No return value found on the stack")
          | .ok (v, rest) =>
              .ok { s with
                    stack := v :: rest,
                    callStack := restCalls,
                    pc := entry.returnAddress,
                    symbolTableStack := s.symbolTableStack.drop 1 }
      | .filter numArgs =>
        match popArgsPop numArgs s.stack with
        | .error e => .error e
        | .ok (argsPop, s1stack) =>
          match pop s1stack with
          | .error _ => .error (.rt "error executing FILTER: stack underflow")
          | .ok (lamV, s2stack) =>
            match lamV with
            | .vlambda lf =>
              -- `for i := len(args) - 1; i >= 0; i--` walks the popped
              -- slice from its last element to its first, which is the
              -- reversed pop order
              match filterLoop fuel { s with stack := s2stack } lf argsPop.reverse with
              | .error e => .error e
              | .ok (s3, kept) =>
                  .ok { s3 with stack := .vlist kept :: s3.stack }
            | _ => .error (.rt "error executing FILTER: expected a lambda function")
      | .jump off =>
          let pc1 := s.pc + off
          if pc1 ≥ s.code.length then
            .error (.rt "Jump leads to invalid instruction index")
          else .ok { s with pc := pc1 }
      | .ifOp =>
        match s.stack with
        | [] => .error (.rt "IF instruction requires a condition value on the stack")
        | v :: rest =>
          match v with
          | .vbool cond =>
              if cond then .ok { s with stack := rest }
              else .ok { s with
                         stack := rest,
                         pc := jumpToOpcode s.code s.pc 47 }
          | _ => .error (.rt "IF instruction requires a boolean condition value on the stack")
      | .elseOp => .ok { s with pc := jumpToOpcode s.code s.pc 48 }
      | .endifOp => .ok s
      | .div => .error (.rt "Unknown instruction")

/-- `vm.executeLambda` (used by `MAP` and `FILTER`): arity check, fresh
frame over the captured environment, bounded re-entry of the main loop,
then the result is POPPED if the stack is nonempty (`nil` otherwise) and
the PC and frame stack are restored. -/
def executeLambda : Nat → St → LambdaFn → List Value →
    Except Err (St × Option Value)
  | 0, _, _, _ => .error .fuel
  | fuel + 1, s, lf, args =>
    if args.length ≠ lf.paramCount then
      .error (.rt "lambda function expected a different number of arguments")
    else
      let savedPC := s.pc
      let tbl := bindParamsTable (some lf.symbolTable) lf.paramNames args
      let s1 := { s with symbolTableStack := tbl :: s.symbolTableStack }
      match runLoop fuel lf.endAddress { s1 with pc := lf.startAddress } with
      | .error e => .error e
      | .ok s2 =>
        match s2.stack with
        | [] => .ok ({ s2 with
                       pc := savedPC,
                       symbolTableStack := s2.symbolTableStack.drop 1 }, none)
        | v :: rest =>
            .ok ({ s2 with
                   stack := rest, pc := savedPC,
                   symbolTableStack := s2.symbolTableStack.drop 1 }, some v)

/-- The per-element loop of `FILTER`, written over the list it walks in
iteration order: invoke the lambda on the element, keep it when the
result is `bool true`, in iteration order. -/
def filterLoop : Nat → St → LambdaFn → List Value →
    Except Err (St × List Value)
  | 0, _, _, _ => .error .fuel
  | _ + 1, s, _, [] => .ok (s, [])
  | fuel + 1, s, lf, a :: t =>
    match executeLambda fuel s lf [a] with
    | .error e => .error e
    | .ok (s1, r) =>
      match filterLoop fuel s1 lf t with
      | .error e => .error e
      | .ok (s2, kept) =>
        match r with
        | some (.vbool true) => .ok (s2, a :: kept)
        | _ => .ok (s2, kept)

end

/-- `vm.Run()` with explicit bounds: the `for` init sets the PC to
`start`; the loop runs while the PC is below `endB`. -/
def runEntry (fuel : Nat) (start endB : Nat) (s : St) : Except Err St :=
  runLoop fuel endB { s with pc := start }

/-- `vm.Run()` as the driver calls it: from instruction 0 to the end of
the code. -/
def runProgram (fuel : Nat) (s : St) : Except Err St :=
  runEntry fuel 0 s.code.length s

/-- The VM `NewVM` builds, before `Run`: empty stacks, one global frame. -/
def initSt (code : List Instr) (offsetMap : List (Nat × Nat)) : St :=
  { stack := [], pc := 0, code := code, offsetMap := offsetMap,
    symbolTableStack := [.mk [] none], functions := [], callStack := [],
    output := [] }

end Goo

namespace Goo

/-! ## Compile-time symbol table (compiler.go) -/

inductive SymbolType where
  | variableSym
  | functionSym
deriving DecidableEq

inductive DataType where
  | intType | floatType | stringType | boolType
deriving DecidableEq

/-- `ParseDataType`: unknown annotations default to `int`. -/
def ParseDataType (pt : String) : DataType :=
  if pt = "int" then .intType
  else if pt = "float" then .floatType
  else if pt = "string" then .stringType
  else if pt = "bool" then .boolType
  else .intType

/-- `Symbol` from compiler.go. -/
structure CSymbol where
  name : String
  stype : SymbolType
  dataType : DataType
  paramNames : List String
  startAddress : Nat
deriving DecidableEq

/-- `SymbolTable` from compiler.go: a scope's own mapping plus a parent. -/
inductive CSymTab where
  | mk (symbols : List (String × CSymbol)) (parent : Option CSymTab)

namespace CSymTab

def symbols : CSymTab → List (String × CSymbol) | .mk s _ => s
def parent : CSymTab → Option CSymTab | .mk _ p => p

def updateSyms (l : List (String × CSymbol)) (name : String) (sym : CSymbol) :
    List (String × CSymbol) :=
  match l with
  | [] => [(name, sym)]
  | (k, w) :: rest =>
      if k = name then (k, sym) :: rest else (k, w) :: updateSyms rest name sym

/-- `SymbolTable.DefineVariable` (through `DefineSymbol`): the entry lands
in this scope's own mapping; `ParamNames` and `StartAddress` stay zero. -/
def defineVariable (t : CSymTab) (name : String) (dt : DataType) : CSymTab :=
  .mk (updateSyms t.symbols name ⟨name, .variableSym, dt, [], 0⟩) t.parent

/-- `SymbolTable.DefineFunction`: overwrites any prior entry. -/
def defineFunction (t : CSymTab) (name : String) (startAddress : Nat)
    (paramNames : List String) (returnType : DataType) : CSymTab :=
  .mk (updateSyms t.symbols name ⟨name, .functionSym, returnType, paramNames, startAddress⟩)
    t.parent

/-- `SymbolTable.Resolve`: innermost-first walk to the root. -/
def resolve : CSymTab → String → Option CSymbol
  | .mk symbols parent, name =>
      match symbols.find? (fun p => p.1 = name) with
      | some p => some p.2
      | none =>
          match parent with
          | some par => par.resolve name
          | none => none

end CSymTab

/-! ## AST shapes (delivered by the parser collaborator)

Only the node kinds the verified programs and the claims touch are
carried.  `FunctionDefinition`, `LambdaExpression`, `LambdaCall` and
`MapExpression` compile through paths no claim's program takes, so they
are absent; `determineCapturedVariables` receives its lambda body as a
plain expression list, which is how the compiler hands it over. -/

inductive Ast where
  | ident (v : String)
  | num (n : Int)
  | abool (b : Bool)
  | astr (s : String)
  | op (sym : String)
  | typeAnn (v t : String)
  | seq (l : List Ast)
  | ifAst (cond thenB : Ast) (elseB : Option Ast)
  | retAst (v : Ast)

/-! ## Captured-variable discovery (`determineCapturedVariables`)

The source walks the lambda body with a closure `visitNode` whose type
switch handles `parser.Identifier` and `[]interface{}` only; a qualifying
identifier is recorded in a `map[string]bool`.  The map's key set in
insertion order is `determineCapturedKeys` below.  The final list is
produced by `for varName := range captured`, and a Go map range
enumerates the keys in an UNSPECIFIED, run-to-run randomized order, so
the function's possible outputs are exactly the permutations of the key
list: `determineCapturedResult`. -/

mutual

def visitCapture (st : CSymTab) (paramNames : List String) :
    Ast → List String → List String
  | .ident v, acc =>
      match st.resolve v with
      | some sym =>
          if sym.stype = .variableSym ∧ v ∉ paramNames ∧ v ∉ acc then
            acc ++ [v]
          else if sym.stype = .variableSym ∧ v ∉ paramNames then acc
          else acc
      | none => acc
  | .seq l, acc => visitCaptureList st paramNames l acc
  | _, acc => acc

def visitCaptureList (st : CSymTab) (paramNames : List String) :
    List Ast → List String → List String
  | [], acc => acc
  | e :: t, acc => visitCaptureList st paramNames t (visitCapture st paramNames e acc)

end

/-- The insertion-ordered key list of the `captured` map after the body
walk. -/
def determineCapturedKeys (st : CSymTab) (params : List String)
    (body : List Ast) : List String :=
  visitCaptureList st params body []

/-- The possible return values of `determineCapturedVariables`: any
enumeration order of the map's keys. -/
def determineCapturedResult (st : CSymTab) (params : List String)
    (body : List Ast) (l : List String) : Prop :=
  l.Perm (determineCapturedKeys st params body)

/-- The claim's membership notion, written from its words: an identifier
the body walk reaches that resolves to a Variable in the scope chain and
is not a lambda parameter. -/
def capturedSpecMember (st : CSymTab) (params : List String)
    (body : List Ast) (x : String) : Prop :=
  x ∈ determineCapturedKeys st params body

/-! ## The compiler dispatch (`compileNode`, middle compiler.go)

State: the byte stream is the growing instruction list; the symbol table
threads through.  The cases below are the ones the verified programs
reach, in the source's guard order: a `TypeAnnotation` head is `let`; an
identifier head is checked against `def` and `print`, then against the
symbol table for a function call; an operator head compiles its operands
and then itself; any other composite compiles every element in order.
The list-form `def` branch (which emits a two-operand `DEFINE_FUNCTION`)
and the `FunctionDefinition`/lambda/map nodes are outside every claim's
programs and are left unmodelled. -/

/-- The `parser.Operator` case of `compileNode`: the seven known symbols,
anything else a compile error. -/
def operatorInstr (sym : String) : Except String Instr :=
  if sym = "+" then .ok .add
  else if sym = "-" then .ok .sub
  else if sym = "*" then .ok .mul
  else if sym = ">" then .ok .grt
  else if sym = "<" then .ok .less
  else if sym = "=" then .ok .eq
  else if sym = "?" then .ok .neq
  else .error ("unknown operator: " ++ sym)

/-- `strings.Trim(v, "'")`: strip apostrophes from both ends. -/
def trimApos (s : String) : String :=
  let l := s.toList.dropWhile (fun c => c = '\'')
  String.mk ((l.reverse.dropWhile (fun c => c = '\'')).reverse)

mutual

def compileNode (st : CSymTab) : Ast → Except String (CSymTab × List Instr)
  | .seq l =>
    match l with
    | [] => .error "empty expression"
    | hd :: tl =>
      match hd with
      | .typeAnn v t =>
          match tl with
          | [e] => do
              let (st1, code) ← compileNode st e
              .ok (st1.defineVariable v (ParseDataType t), code ++ [.defineVariable v])
          | _ => .error "let expects two arguments"
      | hdI@(.ident f) =>
          if f = "def" then
            .error "list-form def: branch not modelled (no claim program reaches it)"
          else if f = "print" then
            match tl with
            | [e] => do
                let (st1, code) ← compileNode st e
                .ok (st1, code ++ [.print])
            | _ => .error "print expects one argument"
          else
            match st.resolve f with
            | some sym =>
                if sym.stype = .functionSym then do
                  let (st1, code) ← compileList st tl
                  .ok (st1, code ++ [.callFunction f])
                else do
                  -- the generic loop: compile the head as a node, then the rest
                  let (st1, c1) ← compileNode st hdI
                  let (st2, c2) ← compileList st1 tl
                  .ok (st2, c1 ++ c2)
            | none => do
                let (st1, c1) ← compileNode st hdI
                let (st2, c2) ← compileList st1 tl
                .ok (st2, c1 ++ c2)
      | hdO@(.op _) => do
          let (st1, code) ← compileList st tl
          let (st2, opCode) ← compileNode st1 hdO
          .ok (st2, code ++ opCode)
      | other => do
          let (st1, c1) ← compileNode st other
          let (st2, c2) ← compileList st1 tl
          .ok (st2, c1 ++ c2)
  | .ident v =>
      match st.resolve v with
      | some sym =>
          match sym.stype with
          | .functionSym => .ok (st, [.callFunction v])
          | .variableSym => .ok (st, [.pushVariable v])
      | none => .error ("undefined identifier: " ++ v)
  | .num n => .ok (st, [.pushNumber n])
  | .abool b => .ok (st, [.pushBool b])
  | .astr s => .ok (st, [.pushString (trimApos s)])
  | .op sym => do
      let i ← operatorInstr sym
      .ok (st, [i])
  | .ifAst cond thenB elseB => do
      let (st1, condCode) ← compileNode st cond
      let (st2, thenCode) ← compileNode st1 thenB
      match elseB with
      | some eB => do
          let (st3, elseCode) ← compileNode st2 eB
          .ok (st3, condCode ++ [.ifOp] ++ thenCode ++ [.elseOp] ++ elseCode ++ [.endifOp])
      | none => .ok (st2, condCode ++ [.ifOp] ++ thenCode ++ [.endifOp])
  | .retAst v => do
      let (st1, code) ← compileNode st v
      .ok (st1, code ++ [.ret])
  | .typeAnn _ _ => .error "unknown node type: TypeAnnotation"

def compileList (st : CSymTab) : List Ast → Except String (CSymTab × List Instr)
  | [] => .ok (st, [])
  | e :: t => do
      let (st1, code) ← compileNode st e
      let (st2, codeRest) ← compileList st1 t
      .ok (st2, code ++ codeRest)

end

/-- `Compiler.CompileAST` on a fresh compiler: compile from the global
scope; the decode pass back from bytes reproduces the emitted records. -/
def compileProgram (ast : Ast) : Except String (List Instr) :=
  match compileNode (.mk [] none) ast with
  | .error e => .error e
  | .ok (_, code) => .ok code

end Goo

namespace Goo

/-! ## Byte-level serialization (`emit`/`serializeOperands`, compiler.go)

Bytes are `Nat` (always below 256 in well-formed streams).  A Go string
serializes as a four-byte little-endian length followed by its UTF-8
bytes; the programs here use ASCII names, for which the byte length is
the character count. -/

def le32 (n : Nat) : List Nat :=
  [n % 256, n / 256 % 256, n / 65536 % 256, n / 16777216 % 256]

def le64 (n : Nat) : List Nat :=
  [n % 256, n / 256 % 256, n / 65536 % 256, n / 16777216 % 256,
   n / 2 ^ 32 % 256, n / 2 ^ 40 % 256, n / 2 ^ 48 % 256, n / 2 ^ 56 % 256]

def strBytes (s : String) : List Nat := s.toList.map Char.toNat

def encodeStrOperand (s : String) : List Nat :=
  le32 (strBytes s).length ++ strBytes s

/-- A `[]string` operand: four-byte count, then each string
length-prefixed. -/
def encodeStrList (l : List String) : List Nat :=
  le32 l.length ++ (l.map encodeStrOperand).flatten

/-- The eight operand bytes of a float64.  Only their COUNT is ever read
below (`calculateCorrectedOffset` merely skips them), so the IEEE-754
bits are stood in for by the little-endian bytes of the integer value. -/
def encodeNumOperand (n : Int) : List Nat := le64 ((n % (2 : Int) ^ 64).toNat)

/-- The operand bytes `serializeOperands` produces for each emit site. -/
def operandBytes : Instr → List Nat
  | .pushNumber n => encodeNumOperand n
  | .pushBool b => [if b then 1 else 0]
  | .pushString s => encodeStrOperand s
  | .pushVariable s => encodeStrOperand s
  | .defineVariable s => encodeStrOperand s
  | .callFunction s => encodeStrOperand s
  | .defineFunction name addr params =>
      encodeStrOperand name ++ le32 addr ++ le32 params.length ++ encodeStrList params
  | .createLambda sa ea params caps =>
      le32 sa ++ le32 ea ++ le32 params.length ++ encodeStrList params ++
        le32 caps.length ++ encodeStrList caps
  | .callLambda n => le32 n
  | .jump off => le32 off
  | .filter n => le32 n
  | _ => []

/-- `Compiler.emit`: the opcode byte, then the serialized operands. -/
def encodeInstr (i : Instr) : List Nat := opcodeByte i :: operandBytes i

def encodeList (l : List Instr) : List Nat := (l.map encodeInstr).flatten

/-- `binary.LittleEndian.Uint32` on the first four bytes; never consulted
with fewer than four. -/
def readLe32 : List Nat → Nat
  | b0 :: b1 :: b2 :: b3 :: _ => b0 + 256 * b1 + 65536 * b2 + 16777216 * b3
  | _ => 0

/-! ## Jump patching (`calculateCorrectedOffset`, compiler.go) -/

/-- The per-opcode skip the `calculateCorrectedOffset` loop applies after
reading an opcode byte: the operand widths it knows.  For the
string-carrying opcodes Go bounds-checks `i+4 > len` and `break`s out of
the SWITCH (not the loop), skipping nothing.  Opcodes missing from this
table (`DEFINE_FUNCTION`, `CREATE_LAMBDA`, `CALL_LAMBDA`, `MAP`) fall to
the empty `default` and also skip nothing, leaving the walk
misaligned. -/
def skipAmount (opc : Nat) (rest : List Nat) : Nat :=
  if opc = 29 then 8
  else if opc = 31 ∨ opc = 28 ∨ opc = 32 ∨ opc = 52 then
    if rest.length < 4 then 0 else 4 + readLe32 rest
  else if opc = 30 then 1
  else if opc = 51 then 4
  else 0

/-- The loop of `calculateCorrectedOffset`:
`for i < len(bytecode) && instructionCount < targetOffset`. -/
def calcAux : List Nat → Nat → Nat → Nat
  | [], _, c => c
  | b :: rest, t, c =>
    if t ≤ c then c
    else calcAux (rest.drop (skipAmount b rest)) t (c + 1)
termination_by l => l.length
decreasing_by simp; omega

/-- `calculateCorrectedOffset(bytecode, targetOffset)`: walk the WHOLE
byte stream from offset 0, counting instructions with the width table,
stopping once the count reaches `targetOffset` (a BYTE span in every
caller) or the stream ends. -/
def calculateCorrectedOffset (bytecode : List Nat) (targetOffset : Nat) : Nat :=
  calcAux bytecode targetOffset 0

/-- The operand the function-body jump patch writes
(`compileFunctionDefinition` lines 767-770): the body's byte span
`instructionCountAfterBody - instructionCountBeforeBody` (a difference of
`len(c.bytecode)` values, so BYTES) goes to `calculateCorrectedOffset`
applied to the ENTIRE bytecode emitted so far, and one is subtracted.
`pre` is everything emitted before this definition's leading `JUMP(0)`.
The Go subtraction is on `int`; the count is at least one wherever this
is used, so `Nat` subtraction agrees. -/
def patchedJumpOperand (pre body : List Instr) : Nat :=
  calculateCorrectedOffset
    (encodeList pre ++ encodeInstr (.jump 0) ++ encodeList body)
    (encodeList body).length - 1

/-- The spec's description of the conversion: an instruction count
obtained by walking JUST the body region byte-by-byte with the
per-opcode operand sizes. -/
def specWalkCount : List Nat → Nat
  | [] => 0
  | b :: rest => specWalkCount (rest.drop (skipAmount b rest)) + 1
termination_by l => l.length
decreasing_by simp; omega

/-- Opcodes whose operand widths the `calculateCorrectedOffset` table
reproduces exactly (string payloads must fit the four-byte length
prefix). -/
def tableExact : Instr → Bool
  | .defineFunction _ _ _ => false
  | .createLambda _ _ _ _ => false
  | .callLambda _ => false
  | .filter _ => false
  | .pushVariable s => decide ((strBytes s).length < 2 ^ 32)
  | .pushString s => decide ((strBytes s).length < 2 ^ 32)
  | .defineVariable s => decide ((strBytes s).length < 2 ^ 32)
  | .callFunction s => decide ((strBytes s).length < 2 ^ 32)
  | _ => true

/-! ## The driver (`goo.go`, `main`) -/

/-- `main` from the point the source file has been read.  A parse error
is printed with `Error:` and execution FALLS THROUGH (the nil AST then
fails `CompileAST` with an unknown-node-type error); a compile error is
printed and `main` returns; a runtime error is printed and `main` falls
off the end.  All three paths reach the end of `main`, so the process
exits 0.  `os.Exit(1)` happens only earlier, for missing arguments or an
unreadable source (or log) file, modelled by the two booleans.  The
result is (process exit code, printed lines). -/
def driverRun (fuel : Nat) (argsOk readOk : Bool)
    (parseRes : Except String Ast) : Nat × List String :=
  if argsOk = false then
    (1, ["Usage: ./goo [-debug path/to/log.log] path/to/src.goo"])
  else if readOk = false then
    (1, ["Error reading source file"])
  else
    match parseRes with
    | .error e =>
        (0, ["Error: " ++ e, "Error compiling AST: unknown node type"])
    | .ok ast =>
      match compileProgram ast with
      | .error e => (0, ["Error compiling AST: " ++ e])
      | .ok code =>
        match runProgram fuel (initSt code []) with
        | .error (.rt m) => (0, ["Error executing Goo code: " ++ m])
        | .error .fuel => (0, ["Error executing Goo code: fuel exhausted (model artifact)"])
        | .ok s => (0, s.output)

/-- Compile an AST and run the result, keeping the PRINT renderings: the
observable output of the pipeline. -/
def pipelineOutput (fuel : Nat) (ast : Ast) : Option (List String) :=
  match compileProgram ast with
  | .error _ => none
  | .ok code =>
    match runProgram fuel (initSt code []) with
    | .error _ => none
    | .ok s => some s.output

end Goo

namespace Goo

/-! ## Spec-side definitions used to state the claims -/

/-- Whether a value is a number (the claims' only operand type for the
arithmetic opcodes). -/
def Value.isNum : Value → Bool
  | .num _ => true
  | _ => false

/-- The result the claim's wording assigns to each arithmetic/comparison
opcode ("pop two numbers, push result"), left operand first. -/
def specArithResult : Instr → Int → Int → Value
  | .add, a, b => .num (a + b)
  | .sub, a, b => .num (a - b)
  | .mul, a, b => .num (a * b)
  | .grt, a, b => .vbool (decide (a > b))
  | .less, a, b => .vbool (decide (a < b))
  | _, _, _ => .num 0

/-- Invoking the lambda once per element, left to right, threading the
VM state and collecting the raw results: the claim's reading of the
per-element FILTER loop. -/
def mapLambdaSpec : Nat → St → LambdaFn → List Value →
    Except Err (St × List (Option Value))
  | 0, _, _, _ => .error .fuel
  | _ + 1, s, _, [] => .ok (s, [])
  | fuel + 1, s, lf, a :: t =>
    match executeLambda fuel s lf [a] with
    | .error e => .error e
    | .ok (s1, r) =>
      match mapLambdaSpec fuel s1 lf t with
      | .error e => .error e
      | .ok (s2, rs) => .ok (s2, r :: rs)

/-- Keep the arguments whose lambda result is `bool true`, in the
arguments' own order. -/
def keepTrue : List Value → List (Option Value) → List Value
  | [], _ => []
  | _ :: _, [] => []
  | a :: t, r :: rs =>
    match r with
    | some (.vbool true) => a :: keepTrue t rs
    | _ => keepTrue t rs

/-! ## Concrete programs and states named by the claim theorems -/

/-- The abstract syntax of scenario S1,
`(let x:int 3) (print (- x 1))`, as the parser collaborator delivers
it. -/
def s1Ast : Ast :=
  .seq [.seq [.typeAnn "x" "int", .num 3],
        .seq [.ident "print", .seq [.op "-", .ident "x", .num 1]]]

/-- A function body `(* x 2)` ending in RETURN, as
`compileFunctionDefinition` emits it for `(def double (x:int) (ret (* x 2)))`. -/
def fnBody : List Instr := [.pushVariable "x", .pushNumber 2, .mul, .ret]

/-- The code `(let x:int 3)` emits, preceding a function definition. -/
def letPrefix : List Instr := [.pushNumber 3, .defineVariable "x"]

/-- The decoded program for `(let x:int 3) (def double (x:int) (ret (* x 2)))`
with the jump operand the compiler actually patches in, positioned at its
JUMP instruction. -/
def letThenDefSt : St :=
  { initSt (letPrefix ++ .jump (patchedJumpOperand letPrefix fnBody) ::
      fnBody ++ [.defineFunction "double" 15 ["x"]]) [] with pc := 2 }

/-- A function definition compiled at byte offset 0, positioned at its
JUMP instruction. -/
def defFirstSt : St :=
  initSt (.jump (patchedJumpOperand [] fnBody) ::
    fnBody ++ [.defineFunction "double" 0 ["x"]]) []

/-- Decoded program for the lambda call `((x:int) -> (* x 2))(5)`: the
leading JUMP skips the body; `CREATE_LAMBDA`'s operands are the byte
addresses of the body, translated through the offset map. -/
def lambdaCallCode : List Instr :=
  [.jump 3, .pushVariable "x", .pushNumber 2, .mul,
   .createLambda 5 21 ["x"] [], .pushNumber 5, .callLambda 1]

def lambdaCallOffsets : List (Nat × Nat) :=
  [(0, 0), (5, 1), (11, 2), (20, 3), (21, 4), (26, 5), (35, 6)]

/-- A `DEFINE_VARIABLE x` executed with an empty innermost frame whose
parent chain (as `CALL_FUNCTION` builds it) reaches a frame binding
`x`. -/
def shadowSt : St :=
  { stack := [.num 5], pc := 0, code := [.defineVariable "x"], offsetMap := [],
    symbolTableStack := [.mk [] (some (.mk [("x", .num 3)] none))],
    functions := [], callStack := [], output := [] }

/-- A `DEFINE_VARIABLE x` executed with `x` bound nowhere. -/
def freshDefineSt : St :=
  { stack := [.num 5], pc := 0, code := [.defineVariable "x"], offsetMap := [],
    symbolTableStack := [.mk [] none],
    functions := [], callStack := [], output := [] }

/-- A `DIV` instruction about to execute on two numbers with a nonzero
divisor on top. -/
def divSt : St :=
  { stack := [.num 2, .num 4], pc := 0, code := [.div], offsetMap := [],
    symbolTableStack := [.mk [] none], functions := [], callStack := [],
    output := [] }

/-- An `ADD` instruction about to execute on 3 and 2. -/
def addSt : St :=
  { stack := [.num 2, .num 3], pc := 0, code := [.add], offsetMap := [],
    symbolTableStack := [.mk [] none], functions := [], callStack := [],
    output := [] }

/-- Program for C5: `f`'s metadata is installed with start address 1
(instruction `PUSH_NUMBER 7`), as `DEFINE_FUNCTION` with operand 0 would
leave it. -/
def callFnSt : St :=
  { initSt [.callFunction "f", .pushNumber 7, .pushNumber 8] [] with
    functions := [("f", ⟨1, 0, []⟩)] }

/-- Decoded program for `(filter ((x:int) -> (> x 1)) (1 2 3))`. -/
def filterCode : List Instr :=
  [.jump 3, .pushVariable "x", .pushNumber 1, .grt,
   .createLambda 5 21 ["x"] [], .pushNumber 1, .pushNumber 2,
   .pushNumber 3, .filter 3]

def filterOffsets : List (Nat × Nat) :=
  [(0, 0), (5, 1), (11, 2), (20, 3), (21, 4), (26, 5), (35, 6), (44, 7), (53, 8)]

/-- The lambda value `filterCode`'s `CREATE_LAMBDA` pushes. -/
def filterLambda : LambdaFn := .mk 1 4 1 ["x"] [] (.mk [] none)

/-- The VM state at `filterCode`'s FILTER instruction: arguments 1, 2, 3
pushed over the lambda. -/
def filterSt : St :=
  { stack := [.num 3, .num 2, .num 1, .vlambda filterLambda], pc := 8,
    code := filterCode, offsetMap := filterOffsets,
    symbolTableStack := [.mk [] none], functions := [], callStack := [],
    output := [] }

/-- An enclosing scope binding the variables `a` and `b`. -/
def twoVarTab : CSymTab :=
  .mk [("a", ⟨"a", .variableSym, .intType, [], 0⟩),
       ("b", ⟨"b", .variableSym, .intType, [], 0⟩)] none

/-- An IF about to take a false condition in a program whose remainder
holds no ELSE opcode (an if-form with no else branch). -/
def ifNoElseSt : St :=
  { stack := [.vbool false], pc := 1,
    code := [.pushBool false, .ifOp, .pushNumber 7, .print, .endifOp],
    offsetMap := [], symbolTableStack := [.mk [] none], functions := [],
    callStack := [], output := [] }

/-- An ELSE reached by fall-through in a program whose remainder holds no
ENDIF opcode. -/
def elseNoEndSt : St :=
  { stack := [], pc := 2,
    code := [.pushBool true, .ifOp, .elseOp, .pushNumber 7, .print],
    offsetMap := [], symbolTableStack := [.mk [] none], functions := [],
    callStack := [], output := [] }

end Goo

namespace Goo

/-! ## Identifier occurrence (C7's wording) -/

mutual

/-- The identifiers the capture walk can reach: `visitNode`'s type switch
descends into `Identifier` and `[]interface{}` nodes only. -/
def identOccurs : Ast → String → Bool
  | .ident v, x => v == x
  | .seq l, x => identOccursList l x
  | _, _ => false

def identOccursList : List Ast → String → Bool
  | [], _ => false
  | e :: t, x => identOccurs e x || identOccursList t x

end

/-- The claim's resolution condition: the name resolves to a Variable in
the enclosing scope chain. -/
def resolvesToVariable (st : CSymTab) (x : String) : Prop :=
  ∃ sym, st.resolve x = some sym ∧ sym.stype = .variableSym

/-! # Claim theorems -/

/-! ## C3: DEFINE_VARIABLE and immutable rebinding -/

/-- C3 counterexample: `DEFINE_VARIABLE x` aborts with the
immutable-rebinding error although `x` is NOT bound in the innermost
frame's own mapping (`getOwn` is `none`), only in an outer frame of its
parent chain; the claim promises this very definition succeeds and
shadows the outer binding. -/
theorem c3_counterexample :
    stepInstr 1 shadowSt =
      .error (.rt "Variable x is immutable and has already been defined") ∧
    (Env.mk [] (some (Env.mk [("x", Value.num 3)] none))).getOwn "x" = none := by
  constructor
  · simp [stepInstr, shadowSt, Env.get]
  · rfl

/-- C3 amended: executing DEFINE_VARIABLE aborts with the
immutable-rebinding runtime error if and only if the popped name
resolves through the innermost frame's `Get`, that is, in the innermost
frame OR anywhere up its parent chain; a name not resolvable there is
bound in the innermost frame. -/
theorem c3_amended_theorem (fuel : Nat) (s : St) (name : String) (v : Value)
    (rest : List Value) (cur : Env) (outers : List Env)
    (hcode : s.code[s.pc]? = some (.defineVariable name))
    (hstack : s.stack = v :: rest)
    (htabs : s.symbolTableStack = cur :: outers) :
    (cur.get name = none →
      stepInstr (fuel + 1) s =
        .ok { s with
              stack := rest,
              symbolTableStack := cur.set name v :: outers }) ∧
    (∀ w, cur.get name = some w →
      stepInstr (fuel + 1) s =
        .error (.rt ("Variable " ++ name ++
          " is immutable and has already been defined"))) := by
  constructor
  · intro hget
    simp [stepInstr, hcode, hstack, htabs, hget]
  · intro w hget
    simp [stepInstr, hcode, hstack, htabs, hget]

/-- C3 witness: the amended theorem at two states: a name bound nowhere
binds in the innermost frame; a name bound only in an outer frame of the
chain is rejected. -/
theorem c3_witness :
    stepInstr 1 freshDefineSt =
      .ok { freshDefineSt with
            stack := [],
            symbolTableStack := [(Env.mk [] none).set "x" (.num 5)] } ∧
    stepInstr 1 shadowSt =
      .error (.rt "Variable x is immutable and has already been defined") := by
  constructor
  · exact (c3_amended_theorem 0 freshDefineSt "x" (.num 5) [] (.mk [] none) []
      rfl rfl rfl).1 rfl
  · exact (c3_amended_theorem 0 shadowSt "x" (.num 5) []
      (.mk [] (some (.mk [("x", .num 3)] none))) [] rfl rfl rfl).2 (.num 3) rfl

/-! ## C4: arithmetic opcodes and DIV -/

/-- C4 counterexample: DIV with two number operands and a nonzero
divisor on top is claimed to push the quotient; the VM switch has no DIV
case, so its default branch aborts with an unknown-instruction error. -/
theorem c4_counterexample :
    stepInstr 1 divSt = .error (.rt "Unknown instruction") := by
  simp [stepInstr, divSt]

/-- C4 amended: ADD, SUB, MUL, GRT and LESS pop two number operands
(raising a runtime error when either is not a number) and push the
result; DIV is unhandled and always aborts through the switch default,
and the compiler already rejects the `/` operator. -/
theorem c4_amended_theorem (fuel : Nat) (s : St) :
    (∀ i, i ∈ ([.add, .sub, .mul, .grt, .less] : List Instr) →
      s.code[s.pc]? = some i → ∀ (a b : Int) (rest : List Value),
      s.stack = .num b :: .num a :: rest →
      stepInstr (fuel + 1) s =
        .ok { s with stack := specArithResult i a b :: rest }) ∧
    (∀ i, i ∈ ([.add, .sub, .mul, .grt, .less] : List Instr) →
      s.code[s.pc]? = some i → ∀ (v w : Value) (rest : List Value),
      s.stack = w :: v :: rest → (v.isNum = false ∨ w.isNum = false) →
      ∃ m, stepInstr (fuel + 1) s = .error (.rt m)) ∧
    (s.code[s.pc]? = some .div →
      stepInstr (fuel + 1) s = .error (.rt "Unknown instruction")) ∧
    operatorInstr "/" = .error "unknown operator: /" := by
  refine ⟨?_, ?_, ?_, ?_⟩
  · intro i hi hcode a b rest hstack
    simp only [List.mem_cons, List.not_mem_nil, or_false] at hi
    rcases hi with rfl | rfl | rfl | rfl | rfl
    all_goals simp [stepInstr, binNumOp, specArithResult, hcode, hstack]
  · intro i hi hcode v w rest hstack hnum
    simp only [List.mem_cons, List.not_mem_nil, or_false] at hi
    rcases hi with rfl | rfl | rfl | rfl | rfl
    all_goals cases v <;> cases w <;>
      simp_all [stepInstr, binNumOp, Value.isNum]
  · intro hcode
    simp [stepInstr, hcode]
  · rfl

/-- C4 witness: the amended theorem at concrete states: ADD pushes 5
onto the rest of the stack; DIV aborts despite the nonzero divisor. -/
theorem c4_witness :
    stepInstr 1 addSt = .ok { addSt with stack := [.num 5] } ∧
    stepInstr 1 divSt = .error (.rt "Unknown instruction") := by
  constructor
  · have h := (c4_amended_theorem 0 addSt).1 .add (by simp) rfl 3 2 [] rfl
    simpa [specArithResult] using h
  · exact (c4_amended_theorem 0 divSt).2.2.1 rfl

/-! ## C10: IF with no ELSE, ELSE with no ENDIF -/

/-- C10: when no ELSE opcode occurs after the PC, IF on a false
condition pops the condition and leaves the PC unchanged, yielding
exactly the state the true condition yields, so the then-block runs
anyway; likewise ELSE with no later ENDIF leaves the state unchanged. -/
theorem c10_theorem (fuel : Nat) (s : St) :
    (∀ rest, s.code[s.pc]? = some .ifOp →
      (s.code.drop (s.pc + 1)).findIdx? (fun ins => opcodeByte ins == 47) = none →
      s.stack = .vbool false :: rest →
      stepInstr (fuel + 1) s = .ok { s with stack := rest } ∧
      stepInstr (fuel + 1) { s with stack := .vbool true :: rest } =
        .ok { s with stack := rest }) ∧
    (s.code[s.pc]? = some .elseOp →
      (s.code.drop (s.pc + 1)).findIdx? (fun ins => opcodeByte ins == 48) = none →
      stepInstr (fuel + 1) s = .ok s) := by
  constructor
  · intro rest hcode hfind hstack
    constructor
    · simp [stepInstr, hcode, hstack, jumpToOpcode, hfind]
    · simp [stepInstr, hcode, hstack, jumpToOpcode, hfind]
  · intro hcode hfind
    simp [stepInstr, hcode, jumpToOpcode, hfind]

/-- C10 witness: the theorem at an if-form with no else branch and at an
ELSE with no later ENDIF. -/
theorem c10_witness :
    (stepInstr 1 ifNoElseSt = .ok { ifNoElseSt with stack := [] } ∧
     stepInstr 1 { ifNoElseSt with stack := [.vbool true] } =
       .ok { ifNoElseSt with stack := [] }) ∧
    stepInstr 1 elseNoEndSt = .ok elseNoEndSt := by
  constructor
  · exact (c10_theorem 0 ifNoElseSt).1 [] rfl rfl rfl
  · exact (c10_theorem 0 elseNoEndSt).2 rfl rfl

/-! ## C2: CALL_LAMBDA stack depth -/

/-- C2: running the lambda call `((x:int) -> (* x 2))(5)` from an empty
stack ends with TWO copies of the result 10 on the stack, depth d+2 for
d = 0: the CALL_LAMBDA case reads the body's result with a peek
(`vm.stack[len(vm.stack)-1]`) and pushes it again without popping.  The
claim (and the spec's invariant 4) require depth d+1. -/
theorem c2_failing_run :
    (runProgram 40 (initSt lambdaCallCode lambdaCallOffsets)).map
      (fun s => s.stack) = .ok [Value.num 10, Value.num 10] := by
  simp [runProgram, runEntry, runLoop, stepInstr, initSt, lambdaCallCode,
        lambdaCallOffsets, binNumOp, pop, popArgsOrig, popArgsPop, lookupStack,
        Env.getOwn, Env.get, Env.set, Env.setAssoc, Env.symbols, Env.parent,
        bindParamsTable, snapshotCaps, LambdaFn.startAddress,
        LambdaFn.endAddress, LambdaFn.paramCount, LambdaFn.paramNames,
        LambdaFn.capturedVars, LambdaFn.symbolTable, Except.map, bind,
        Except.bind]

/-! ## C5: the post-dispatch PC increment -/

/-- C5 counterexample: calling `f`, whose installed start address 1
holds `PUSH_NUMBER 7`, never executes that instruction: the loop's post
increment runs after the `continue`, so execution resumes at index 2 and
the final stack is `[8]`, not `[8, 7]`. -/
theorem c5_counterexample :
    (runProgram 10 callFnSt).map (fun s => s.stack) = .ok [Value.num 8] ∧
    callFnSt.code[1]? = some (.pushNumber 7) ∧
    (runProgram 10 callFnSt).map (fun s => s.stack) ≠
      .ok [Value.num 8, Value.num 7] := by
  refine ⟨?_, rfl, ?_⟩
  · simp [runProgram, runEntry, runLoop, stepInstr, callFnSt, initSt,
          popArgsOrig, pop, bindParamsTable, Except.map]
  · simp [runProgram, runEntry, runLoop, stepInstr, callFnSt, initSt,
          popArgsOrig, pop, bindParamsTable, Except.map]

/-- C5 amended: the loop's post-dispatch increment is never overridden —
Go's `continue` still runs the `vm.pc++` post statement.  After JUMP the
next instruction executed is at `pc + operand + 1`; after CALL_FUNCTION
it is at the installed start address PLUS ONE; after RETURN it is at the
saved return address (the call site) PLUS ONE, the instruction after the
call. -/
theorem c5_amended_theorem (fuel endB : Nat) (s : St) (hrun : s.pc < endB) :
    (∀ off, s.code[s.pc]? = some (.jump off) →
      s.pc + off < s.code.length →
      runLoop (fuel + 2) endB s =
        runLoop (fuel + 1) endB { s with pc := s.pc + off + 1 }) ∧
    (∀ name pr args rest cur outers,
      s.code[s.pc]? = some (.callFunction name) →
      s.functions.find? (fun p => p.1 = name) = some pr →
      popArgsOrig pr.2.paramCount s.stack = .ok (args, rest) →
      pr.2.paramCount ≤ s.stack.length →
      s.symbolTableStack = cur :: outers →
      runLoop (fuel + 2) endB s =
        runLoop (fuel + 1) endB
          { s with
            stack := rest,
            callStack := ⟨s.pc, cur⟩ :: s.callStack,
            symbolTableStack :=
              bindParamsTable (some cur) pr.2.paramNames args :: cur :: outers,
            pc := pr.2.startAddress + 1 }) ∧
    (∀ entry restCalls v rest,
      s.code[s.pc]? = some .ret →
      s.callStack = entry :: restCalls →
      s.stack = v :: rest →
      runLoop (fuel + 2) endB s =
        runLoop (fuel + 1) endB
          { s with
            stack := v :: rest, callStack := restCalls,
            symbolTableStack := s.symbolTableStack.drop 1,
            pc := entry.returnAddress + 1 }) := by
  refine ⟨?_, ?_, ?_⟩
  · intro off hcode hb
    rw [runLoop]
    simp [hrun, stepInstr, hcode, Nat.not_le.mpr hb]
  · intro name pr args rest cur outers hcode hfind hpop hlen htabs
    rw [runLoop]
    simp [hrun, stepInstr, hcode, hfind, hpop, htabs, Nat.not_lt.mpr hlen]
  · intro entry restCalls v rest hcode hcalls hstack
    rw [runLoop]
    simp [hrun, stepInstr, hcode, hcalls, hstack, pop]

/-- C5 witness: the amended theorem at `callFnSt`: one iteration at the
CALL_FUNCTION lands the next fetch at the installed start address plus
one. -/
theorem c5_witness :
    runLoop 7 3 callFnSt =
      runLoop 6 3
        { callFnSt with
          stack := [],
          callStack := [⟨0, .mk [] none⟩],
          symbolTableStack :=
            [bindParamsTable (some (.mk [] none)) [] [], .mk [] none],
          pc := 2 } := by
  have h := (c5_amended_theorem 5 3 callFnSt (by simp [callFnSt, initSt])).2.1
    "f" ("f", ⟨1, 0, []⟩) [] [] (.mk [] none) []
    rfl rfl rfl (by simp [callFnSt, initSt]) rfl
  simpa [callFnSt, initSt] using h

end Goo

namespace Goo

/-! ## C6: FILTER keeps the true-tested arguments in input order -/

/-- Popping exactly the pushed prefix returns it in pop order and leaves
the rest. -/
theorem popArgsPop_append (l z : List Value) :
    popArgsPop l.length (l ++ z) = .ok (l, z) := by
  induction l with
  | nil => simp [popArgsPop]
  | cons a t ih => simp [popArgsPop, pop, ih, bind, Except.bind]

/-- The FILTER downward walk over a list is the in-order invocation of
the lambda combined with the keep-when-true selection. -/
theorem filterLoop_eq_mapLambdaSpec (fuel : Nat) (s : St) (lf : LambdaFn)
    (l : List Value) :
    filterLoop fuel s lf l =
      (mapLambdaSpec fuel s lf l).map (fun p => (p.1, keepTrue l p.2)) := by
  induction fuel generalizing s l with
  | zero => simp [filterLoop, mapLambdaSpec, Except.map]
  | succ n ih =>
    cases l with
    | nil => simp [filterLoop, mapLambdaSpec, Except.map, keepTrue]
    | cons a t =>
      simp only [filterLoop, mapLambdaSpec]
      cases hex : executeLambda n s lf [a] with
      | error e => simp [Except.map]
      | ok pr =>
        obtain ⟨s1, r⟩ := pr
        dsimp only
        rw [ih]
        cases hms : mapLambdaSpec n s1 lf t with
        | error e => simp [Except.map]
        | ok pr2 =>
          obtain ⟨s2, rs⟩ := pr2
          cases r with
          | none => simp [Except.map, keepTrue]
          | some v =>
            cases v with
            | vbool b => cases b <;> simp [Except.map, keepTrue]
            | num m => simp [Except.map, keepTrue]
            | vstr str => simp [Except.map, keepTrue]
            | vlist el => simp [Except.map, keepTrue]
            | vlambda lf2 => simp [Except.map, keepTrue]

/-- C6: a FILTER(N) execution over a lambda and N pushed arguments whose
in-order invocations succeed pushes the list of exactly those arguments
for which the lambda returned bool true, in the preserved left-to-right
input order, over the remaining stack; the VM state is the one the
in-order invocations leave. -/
theorem c6_theorem (fuel : Nat) (s : St) (lf : LambdaFn)
    (pushArgs rest : List Value) (s3 : St) (results : List (Option Value))
    (hcode : s.code[s.pc]? = some (.filter pushArgs.length))
    (hstack : s.stack = pushArgs.reverse ++ .vlambda lf :: rest)
    (hrun : mapLambdaSpec fuel { s with stack := rest } lf pushArgs =
      .ok (s3, results)) :
    stepInstr (fuel + 1) s =
      .ok { s3 with stack := .vlist (keepTrue pushArgs results) :: s3.stack } := by
  have hpop : popArgsPop pushArgs.length s.stack =
      .ok (pushArgs.reverse, .vlambda lf :: rest) := by
    rw [hstack, ← List.length_reverse]
    exact popArgsPop_append pushArgs.reverse (.vlambda lf :: rest)
  simp only [stepInstr, List.get?_eq_getElem?, hcode, hpop, pop,
             List.reverse_reverse, filterLoop_eq_mapLambdaSpec, hrun, Except.map]

/-- C6 witness: the theorem at `filterSt`: filtering `(1 2 3)` through
`(x) -> (> x 1)` pushes the list `[2 3]`, input order preserved. -/
theorem c6_witness :
    stepInstr 31 filterSt = .ok { filterSt with stack := [.vlist [.num 2, .num 3]] } := by
  have h := c6_theorem 30 filterSt filterLambda [.num 1, .num 2, .num 3] []
    { filterSt with stack := [] }
    [some (.vbool false), some (.vbool true), some (.vbool true)]
    rfl rfl
    (by simp [mapLambdaSpec, executeLambda, runLoop, stepInstr, filterSt,
          filterLambda, filterCode, bindParamsTable, binNumOp, lookupStack,
          Env.getOwn, Env.set, Env.setAssoc, Env.symbols, Env.parent,
          LambdaFn.startAddress, LambdaFn.endAddress, LambdaFn.paramCount,
          LambdaFn.paramNames, LambdaFn.symbolTable])
  simpa [keepTrue] using h

end Goo

namespace Goo

/-! ## C1: jump patching for function bodies -/

/-- `readLe32` undoes `le32` for values that fit. -/
theorem readLe32_le32 (n : Nat) (z : List Nat) (h : n < 2 ^ 32) :
    readLe32 (le32 n ++ z) = n := by
  simp only [le32, List.cons_append, List.nil_append, readLe32]
  omega

/-- The string-operand shape common to `PUSH_STRING`, `PUSH_VARIABLE`,
`DEFINE_VARIABLE` and `CALL_FUNCTION`: the walk reads the four length
bytes and skips them together with the payload. -/
theorem skip_str (opc : Nat)
    (hopc : opc = 31 ∨ opc = 28 ∨ opc = 32 ∨ opc = 52)
    (st : String) (z : List Nat) (h : (strBytes st).length < 2 ^ 32) :
    (encodeStrOperand st ++ z).drop
      (skipAmount opc (encodeStrOperand st ++ z)) = z := by
  have hassoc : encodeStrOperand st ++ z =
      le32 (strBytes st).length ++ (strBytes st ++ z) := by
    simp [encodeStrOperand]
  have hread : readLe32 (le32 (strBytes st).length ++ (strBytes st ++ z)) =
      (strBytes st).length := readLe32_le32 _ _ h
  have hnotlt : ¬ (le32 (strBytes st).length ++ (strBytes st ++ z)).length < 4 := by
    simp [le32]
  have hopcne : opc ≠ 29 := by omega
  have hskip : skipAmount opc (encodeStrOperand st ++ z) =
      4 + (strBytes st).length := by
    rw [hassoc, skipAmount, if_neg hopcne, if_pos hopc, if_neg hnotlt, hread]
  rw [hskip, hassoc, ← List.append_assoc]
  have hlen4 : 4 + (strBytes st).length =
      (le32 (strBytes st).length ++ strBytes st).length := by
    simp [le32]
    omega
  rw [hlen4]
  exact List.drop_left _ _

/-- For a width-exact instruction, the walk's skip consumes exactly the
operand bytes. -/
theorem skip_operandBytes (i : Instr) (h : tableExact i = true) (z : List Nat) :
    (operandBytes i ++ z).drop
      (skipAmount (opcodeByte i) (operandBytes i ++ z)) = z := by
  cases i with
  | pushNumber n =>
      simp [operandBytes, opcodeByte, skipAmount, encodeNumOperand, le64]
  | pushBool b =>
      simp [operandBytes, opcodeByte, skipAmount]
  | jump off =>
      simp [operandBytes, opcodeByte, skipAmount, le32]
  | pushVariable st =>
      simp only [tableExact, decide_eq_true_eq] at h
      simpa [operandBytes, opcodeByte] using
        skip_str 28 (by omega) st z h
  | pushString st =>
      simp only [tableExact, decide_eq_true_eq] at h
      simpa [operandBytes, opcodeByte] using
        skip_str 31 (by omega) st z h
  | defineVariable st =>
      simp only [tableExact, decide_eq_true_eq] at h
      simpa [operandBytes, opcodeByte] using
        skip_str 32 (by omega) st z h
  | callFunction st =>
      simp only [tableExact, decide_eq_true_eq] at h
      simpa [operandBytes, opcodeByte] using
        skip_str 52 (by omega) st z h
  | defineFunction name addr params => simp [tableExact] at h
  | createLambda sa ea params caps => simp [tableExact] at h
  | callLambda n => simp [tableExact] at h
  | filter n => simp [tableExact] at h
  | add => simp [operandBytes, opcodeByte, skipAmount]
  | sub => simp [operandBytes, opcodeByte, skipAmount]
  | mul => simp [operandBytes, opcodeByte, skipAmount]
  | div => simp [operandBytes, opcodeByte, skipAmount]
  | grt => simp [operandBytes, opcodeByte, skipAmount]
  | less => simp [operandBytes, opcodeByte, skipAmount]
  | eq => simp [operandBytes, opcodeByte, skipAmount]
  | neq => simp [operandBytes, opcodeByte, skipAmount]
  | ifOp => simp [operandBytes, opcodeByte, skipAmount]
  | elseOp => simp [operandBytes, opcodeByte, skipAmount]
  | endifOp => simp [operandBytes, opcodeByte, skipAmount]
  | print => simp [operandBytes, opcodeByte, skipAmount]
  | ret => simp [operandBytes, opcodeByte, skipAmount]

/-- Walking an encoding of width-exact instructions followed by a suffix
counts those instructions and continues from the suffix, as long as the
byte-span cap does not bite. -/
theorem calcAux_encodeList (l : List Instr) (suffix : List Nat) (t : Nat) :
    ∀ c, (∀ i ∈ l, tableExact i = true) → c + l.length ≤ t →
    calcAux (encodeList l ++ suffix) t c = calcAux suffix t (c + l.length) := by
  induction l with
  | nil => intro c _ _; simp [encodeList]
  | cons i l2 ih =>
    intro c hx hcap
    have hi : tableExact i = true := hx i (by simp)
    have hlt : ¬ t ≤ c := by simp at hcap ⊢; omega
    have heq : encodeList (i :: l2) ++ suffix =
        opcodeByte i :: (operandBytes i ++ (encodeList l2 ++ suffix)) := by
      simp [encodeList, encodeInstr]
    rw [heq, calcAux, if_neg hlt, skip_operandBytes i hi]
    rw [ih (c + 1) (fun j hj => hx j (by simp [hj])) (by simp at hcap ⊢; omega)]
    have : c + 1 + l2.length = c + (l2.length + 1) := by omega
    simp [this]

/-- The spec-walk of the encoding of width-exact instructions is their
number. -/
theorem specWalkCount_encodeList (l : List Instr)
    (hx : ∀ i ∈ l, tableExact i = true) :
    specWalkCount (encodeList l) = l.length := by
  induction l with
  | nil => simp [encodeList, specWalkCount]
  | cons i l2 ih =>
    have hi : tableExact i = true := hx i (by simp)
    have heq : encodeList (i :: l2) =
        opcodeByte i :: (operandBytes i ++ (encodeList l2 ++ [])) := by
      simp [encodeList, encodeInstr]
    rw [heq, specWalkCount, skip_operandBytes i hi]
    simp [ih (fun j hj => hx j (by simp [hj]))]

/-- C1 amended: the patch walks the ENTIRE bytecode emitted so far from
offset 0 (not the body region), counting at most byte-span instructions,
and writes that count minus one.  When the function definition is the
first code emitted, the count is the jump plus the body, so the operand
equals the body's instruction count — which is also what the spec's walk
of the body region yields — and the patched JUMP (followed by the loop's
increment) then resumes exactly at the first instruction after the
body. -/
theorem c1_amended_theorem (fuel : Nat) (body tail2 : List Instr) (s : St)
    (hx : ∀ i ∈ body, tableExact i = true)
    (hcap : body.length + 1 ≤ (encodeList body).length)
    (hcode : s.code = .jump (patchedJumpOperand [] body) :: body ++ tail2)
    (hpc : s.pc = 0) :
    patchedJumpOperand [] body = body.length ∧
    specWalkCount (encodeList body) = body.length ∧
    stepInstr (fuel + 1) s = .ok { s with pc := body.length } := by
  have hx2 : ∀ i ∈ Instr.jump 0 :: body, tableExact i = true := by
    intro i hi
    rcases List.mem_cons.mp hi with rfl | hi2
    · rfl
    · exact hx i hi2
  have hop : patchedJumpOperand [] body = body.length := by
    have hbytes : encodeList ([] : List Instr) ++ encodeInstr (.jump 0) ++
        encodeList body = encodeList (Instr.jump 0 :: body) ++ [] := by
      simp [encodeList, encodeInstr]
    rw [patchedJumpOperand, calculateCorrectedOffset, hbytes,
        calcAux_encodeList (Instr.jump 0 :: body) [] _ 0 hx2 (by simpa using hcap)]
    simp [calcAux]
  refine ⟨hop, specWalkCount_encodeList body hx, ?_⟩
  have hlen : ¬ s.pc + patchedJumpOperand [] body ≥ s.code.length := by
    rw [hcode, hpc, hop]
    simp
    omega
  simp [stepInstr, hcode, hpc, hop, Nat.not_le.mp hlen, List.get?_eq_getElem?]
  omega

/-- C1 counterexample: for `(let x:int 3) (def double (x:int) (ret (* x 2)))`
the patch writes 6 — the walk from offset 0 also counts the two
instructions of the `let` and the JUMP itself — while the claim's
body-region walk minus one gives 3; taking the patched jump from the
JUMP's index 2 then aims at 2 + 6 + 1 = 9, past the eight decoded
instructions, so the VM aborts instead of resuming after the body at
index 7. -/
theorem c1_counterexample :
    patchedJumpOperand letPrefix fnBody = 6 ∧
    specWalkCount (encodeList fnBody) - 1 = 3 ∧
    stepInstr 1 letThenDefSt =
      .error (.rt "Jump leads to invalid instruction index") := by
  refine ⟨?_, ?_, ?_⟩
  · simp [patchedJumpOperand, calculateCorrectedOffset, calcAux, skipAmount,
          encodeList, encodeInstr, operandBytes, encodeStrOperand, strBytes,
          encodeNumOperand, le32, le64, readLe32, opcodeByte, letPrefix,
          fnBody, List.drop]
  · simp [specWalkCount, skipAmount, encodeList, encodeInstr, operandBytes,
          encodeStrOperand, strBytes, encodeNumOperand, le32, le64, readLe32,
          opcodeByte, fnBody, List.drop]
  · simp [stepInstr, letThenDefSt, initSt, letPrefix, fnBody,
          patchedJumpOperand, calculateCorrectedOffset, calcAux, skipAmount,
          encodeList, encodeInstr, operandBytes, encodeStrOperand, strBytes,
          encodeNumOperand, le32, le64, readLe32, opcodeByte, List.drop]

/-- C1 witness: the amended theorem at the body of
`(def double (x:int) (ret (* x 2)))` compiled first: the operand is the
body's instruction count 4 and the jump resumes at index 5, the
DEFINE_FUNCTION after the body. -/
theorem c1_witness :
    patchedJumpOperand [] fnBody = 4 ∧
    specWalkCount (encodeList fnBody) = 4 ∧
    stepInstr 1 defFirstSt = .ok { defFirstSt with pc := 4 } := by
  have h := c1_amended_theorem 0 fnBody [.defineFunction "double" 0 ["x"]]
    defFirstSt (by decide) (by decide) rfl rfl
  simpa [fnBody] using h

end Goo

namespace Goo

/-! ## C7: captured-variable list -/

/-- Membership in the capture walk's result: the accumulator's names plus
every identifier the walk reaches that resolves to a Variable and is not
a parameter. -/
theorem mem_visitCaptureList (st : CSymTab) (params : List String) :
    ∀ (body : List Ast) (acc : List String) (x : String),
      x ∈ visitCaptureList st params body acc ↔
        x ∈ acc ∨ (identOccursList body x = true ∧
          resolvesToVariable st x ∧ x ∉ params) := by
  refine visitCaptureList.induct st params
    (fun a acc => ∀ x, x ∈ visitCapture st params a acc ↔
      x ∈ acc ∨ (identOccurs a x = true ∧ resolvesToVariable st x ∧ x ∉ params))
    (fun l acc => ∀ x, x ∈ visitCaptureList st params l acc ↔
      x ∈ acc ∨ (identOccursList l x = true ∧ resolvesToVariable st x ∧ x ∉ params))
    ?_ ?_ ?_ ?_ ?_ ?_ ?_ ?_
  · intro v acc sym hres hcond x
    obtain ⟨hvar, hnp, hna⟩ := hcond
    simp only [visitCapture, hres, hvar, hnp, hna, if_pos, and_self,
      not_false_iff, true_and, List.mem_append, List.mem_singleton,
      identOccurs, beq_iff_eq]
    constructor
    · rintro (hx | rfl)
      · exact Or.inl hx
      · exact Or.inr ⟨rfl, ⟨sym, hres, hvar⟩, hnp⟩
    · rintro (hx | ⟨rfl, _, _⟩)
      · exact Or.inl hx
      · exact Or.inr rfl
  · intro v acc sym hres hneg hcond x
    obtain ⟨hvar, hnp⟩ := hcond
    have hacc : v ∈ acc := by
      by_contra hna
      exact hneg ⟨hvar, hnp, hna⟩
    simp only [visitCapture, hres]
    rw [if_neg (fun hc => hc.2.2 hacc), if_pos ⟨hvar, hnp⟩]
    simp only [identOccurs, beq_iff_eq]
    constructor
    · exact Or.inl
    · rintro (hx | ⟨rfl, _, _⟩)
      · exact hx
      · exact hacc
  · intro v acc sym hres hneg1 hneg2 x
    simp only [visitCapture, hres]
    rw [if_neg (fun h => hneg1 ⟨h.1, h.2.1, h.2.2⟩), if_neg hneg2]
    simp only [identOccurs, beq_iff_eq]
    constructor
    · exact Or.inl
    · rintro (hx | ⟨rfl, ⟨sym2, hres2, hvar2⟩, hnp2⟩)
      · exact hx
      · rw [hres] at hres2
        cases hres2
        exact absurd ⟨hvar2, hnp2⟩ hneg2
  · intro v acc hres x
    simp only [visitCapture, hres, identOccurs, beq_iff_eq]
    constructor
    · exact Or.inl
    · rintro (hx | ⟨rfl, ⟨sym2, hres2, _⟩, _⟩)
      · exact hx
      · rw [hres] at hres2
        cases hres2
  · intro l acc ih x
    simpa [visitCapture, identOccurs] using ih x
  · intro t acc hni hns x
    have hocc : identOccurs t x = false := by
      cases t <;> first
        | exact absurd rfl (hni _)
        | exact absurd rfl (hns _)
        | rfl
    have hvis : visitCapture st params t acc = acc := by
      cases t <;> first
        | exact absurd rfl (hni _)
        | exact absurd rfl (hns _)
        | rfl
    simp [hvis, hocc]
  · intro acc x
    simp [visitCaptureList, identOccursList]
  · intro e t acc ih1 ih2 x
    rw [visitCaptureList, ih2 x, ih1 x]
    simp only [identOccursList, Bool.or_eq_true]
    tauto

/-- The capture walk never duplicates a name. -/
theorem nodup_visitCaptureList (st : CSymTab) (params : List String) :
    ∀ (body : List Ast) (acc : List String), acc.Nodup →
      (visitCaptureList st params body acc).Nodup := by
  refine visitCaptureList.induct st params
    (fun a acc => acc.Nodup → (visitCapture st params a acc).Nodup)
    (fun l acc => acc.Nodup → (visitCaptureList st params l acc).Nodup)
    ?_ ?_ ?_ ?_ ?_ ?_ ?_ ?_
  · intro v acc sym hres hcond hacc
    obtain ⟨hvar, hnp, hna⟩ := hcond
    simp only [visitCapture, hres, hvar, hnp, hna, and_self, not_false_iff,
      true_and, if_pos]
    simp [List.nodup_append, hacc, hna]
  · intro v acc sym hres hneg hcond hacc
    obtain ⟨hvar, hnp⟩ := hcond
    have hin : v ∈ acc := by
      by_contra hna
      exact hneg ⟨hvar, hnp, hna⟩
    simp only [visitCapture, hres]
    rw [if_neg (by simp [hin]), if_pos ⟨hvar, hnp⟩]
    exact hacc
  · intro v acc sym hres hneg1 hneg2 hacc
    simp only [visitCapture, hres]
    rw [if_neg (fun h => hneg1 ⟨h.1, h.2.1, h.2.2⟩), if_neg hneg2]
    exact hacc
  · intro v acc hres hacc
    simpa [visitCapture, hres] using hacc
  · intro l acc ih hacc
    simpa [visitCapture] using ih hacc
  · intro t acc hni hns hacc
    have hvis : visitCapture st params t acc = acc := by
      cases t <;> first
        | exact absurd rfl (hni _)
        | exact absurd rfl (hns _)
        | rfl
    simpa [hvis] using hacc
  · intro acc hacc
    simpa [visitCaptureList] using hacc
  · intro e t acc ih1 ih2 hacc
    rw [visitCaptureList]
    exact ih2 (ih1 hacc)

/-- C7 counterexample: with two captured variables `a` then `b`, the map
keys in first-encounter order are `[a, b]`, and `[b, a]` is also a
legitimate output of the Go map-range serialization — refuting both the
claimed first-encounter order and the claimed determinism of the emitted
list. -/
theorem c7_counterexample :
    determineCapturedResult twoVarTab [] [.ident "a", .ident "b"] ["b", "a"] ∧
    determineCapturedKeys twoVarTab [] [.ident "a", .ident "b"] = ["a", "b"] ∧
    (["b", "a"] : List String) ≠ ["a", "b"] := by
  have hkeys : determineCapturedKeys twoVarTab [] [.ident "a", .ident "b"]
      = ["a", "b"] := by
    simp [determineCapturedKeys, visitCaptureList, visitCapture, twoVarTab,
          CSymTab.resolve]
  refine ⟨?_, hkeys, by decide⟩
  rw [determineCapturedResult, hkeys]
  decide

/-- C7 amended: any list `determineCapturedVariables` can return contains
exactly the identifiers reached in the body that resolve to a Variable in
the enclosing scope chain and are not lambda parameters, with no
duplicates, and all possible outputs are permutations of one another —
the SET is a deterministic function of the AST, the serialized ORDER is
not (Go map range order). -/
theorem c7_amended_theorem (st : CSymTab) (params : List String)
    (body : List Ast) (l : List String)
    (h : determineCapturedResult st params body l) :
    (∀ x, x ∈ l ↔ identOccursList body x = true ∧
      resolvesToVariable st x ∧ x ∉ params) ∧
    l.Nodup ∧
    (∀ l2, determineCapturedResult st params body l2 → l2.Perm l) := by
  refine ⟨?_, ?_, ?_⟩
  · intro x
    rw [h.mem_iff, determineCapturedKeys, mem_visitCaptureList]
    simp
  · refine h.symm.nodup ?_
    rw [determineCapturedKeys]
    exact nodup_visitCaptureList st params body [] List.nodup_nil
  · intro l2 h2
    exact h2.trans h.symm

/-- C7 witness: the amended theorem at the two-variable body with the
permuted output `[b, a]`. -/
theorem c7_witness :
    (∀ x, x ∈ (["b", "a"] : List String) ↔
      identOccursList [.ident "a", .ident "b"] x = true ∧
      resolvesToVariable twoVarTab x ∧ x ∉ ([] : List String)) ∧
    (["b", "a"] : List String).Nodup ∧
    (∀ l2, determineCapturedResult twoVarTab [] [.ident "a", .ident "b"] l2 →
      l2.Perm ["b", "a"]) := by
  refine c7_amended_theorem twoVarTab [] [.ident "a", .ident "b"] ["b", "a"] ?_
  rw [determineCapturedResult]
  have hkeys : determineCapturedKeys twoVarTab [] [.ident "a", .ident "b"]
      = ["a", "b"] := by
    simp [determineCapturedKeys, visitCaptureList, visitCapture, twoVarTab,
          CSymTab.resolve]
  rw [hkeys]
  decide

end Goo

namespace Goo

/-! ## C8: driver exit codes -/

/-- C8 counterexample: a compile error (undefined identifier) is printed
with `Error compiling AST:` but `main` merely returns, so the process
exit code is 0, not non-zero; a parse error likewise prints `Error:` and
falls through to a compile error, again exiting 0. -/
theorem c8_counterexample :
    compileProgram (.ident "zzz") = .error "undefined identifier: zzz" ∧
    driverRun 50 true true (.ok (.ident "zzz"))
      = (0, ["Error compiling AST: undefined identifier: zzz"]) ∧
    driverRun 50 true true (.error "unexpected token")
      = (0, ["Error: unexpected token",
             "Error compiling AST: unknown node type"]) ∧
    (0 : Nat) ≠ 1 := by
  have hc : compileProgram (.ident "zzz")
      = .error "undefined identifier: zzz" := by
    simp [compileProgram, compileNode, CSymTab.resolve]
  refine ⟨hc, ?_, rfl, by decide⟩
  simp [driverRun, hc]

/-- C8 amended: once the source file has been read, `main` always reaches
its end — parse, compile and runtime errors are printed but not turned
into a non-zero exit — so the exit code is 0 for EVERY parse result;
exit code 1 occurs only for missing command-line arguments or an
unreadable source file. -/
theorem c8_amended_theorem (fuel : Nat) (parseRes : Except String Ast) :
    (driverRun fuel true true parseRes).1 = 0 ∧
    (∀ readOk, (driverRun fuel false readOk parseRes).1 = 1) ∧
    (driverRun fuel true false parseRes).1 = 1 := by
  refine ⟨?_, fun readOk => rfl, rfl⟩
  rw [driverRun.eq_def]
  simp only [Bool.true_eq_false, if_false]
  cases parseRes with
  | error e => rfl
  | ok ast =>
    dsimp only
    cases hc : compileProgram ast with
    | error e => dsimp only
    | ok code =>
      dsimp only
      cases hr : runProgram fuel (initSt code []) with
      | error err => cases err <;> dsimp only
      | ok s => dsimp only

end Goo

namespace Goo

/-! ## C9: the S1 scenario -/

/-- The S1 pipeline: compiling `(let x:int 3) (print (- x 1))` and running
the result produces the single PRINT rendering of the number 2. -/
theorem s1_pipeline : pipelineOutput 50 s1Ast = some [vmPrint (.num 2)] := by
  have hc : compileProgram s1Ast
      = .ok [.pushNumber 3, .defineVariable "x", .pushVariable "x",
             .pushNumber 1, .sub, .print] := by
    have hA : compileNode (.mk [] none) (.seq [.typeAnn "x" "int", .num 3])
        = .ok (.mk [("x", ⟨"x", .variableSym, .intType, [], 0⟩)] none,
               [.pushNumber 3, .defineVariable "x"]) := by
      simp [compileNode, CSymTab.defineVariable, CSymTab.updateSyms,
            CSymTab.symbols, CSymTab.parent, ParseDataType, bind, Except.bind]
    have hC : compileNode
        (.mk [("x", ⟨"x", .variableSym, .intType, [], 0⟩)] none)
        (.seq [.op "-", .ident "x", .num 1])
        = .ok (.mk [("x", ⟨"x", .variableSym, .intType, [], 0⟩)] none,
               [.pushVariable "x", .pushNumber 1, .sub]) := by
      simp [compileNode, compileList, operatorInstr, CSymTab.resolve,
            bind, Except.bind]
    have hB : compileNode
        (.mk [("x", ⟨"x", .variableSym, .intType, [], 0⟩)] none)
        (.seq [.ident "print", .seq [.op "-", .ident "x", .num 1]])
        = .ok (.mk [("x", ⟨"x", .variableSym, .intType, [], 0⟩)] none,
               [.pushVariable "x", .pushNumber 1, .sub, .print]) := by
      rw [compileNode]
      simp [hC, bind, Except.bind]
    rw [compileProgram, s1Ast, compileNode]
    rw [hA]
    simp only [bind, Except.bind]
    simp [compileList, hB, bind, Except.bind]
    all_goals intros
    all_goals rename_i h
    all_goals nomatch h
  rw [pipelineOutput.eq_def, hc]
  simp [runProgram, runEntry, runLoop, stepInstr, initSt, binNumOp, pop,
        lookupStack, Env.getOwn, Env.get, Env.set, Env.setAssoc,
        Env.symbols, Env.parent, bind, Except.bind]

/-- C9 counterexample: the S1 program's single output line is the ASCII
dash box around 2 that `vmPrint` draws, not the bare string `2`. -/
theorem c9_counterexample :
    pipelineOutput 50 s1Ast = some ["-----\n| 2 |\n-----"] ∧
    ("-----\n| 2 |\n-----" : String) ≠ "2" ∧
    pipelineOutput 50 s1Ast ≠ some ["2"] := by
  have h1 : pipelineOutput 50 s1Ast = some [vmPrint (.num 2)] := s1_pipeline
  have h2 : vmPrint (.num 2) = "-----\n| 2 |\n-----" := rfl
  refine ⟨by rw [h1, h2], by decide, by rw [h1, h2]; decide⟩

/-- C9 amended: compiling and running S1 produces exactly one output
line, the PRINT rendering of the number 2; that rendering is the value
string `2` wrapped in `vmPrint`'s dash box `-----|nl|| 2 ||nl|-----`. -/
theorem c9_amended_theorem :
    pipelineOutput 50 s1Ast = some [vmPrint (.num 2)] ∧
    render (.num 2) = "2" ∧
    vmPrint (.num 2) = "-----\n| 2 |\n-----" :=
  ⟨s1_pipeline, rfl, rfl⟩

end Goo
